import Mathlib

/-!
# Verification of the sfcc-extras rules engine

A shallow embedding of the condition-tree rule engine found in
`cartridges/rules_engine/cartridge/scripts/lib/{ObjectDiscovery,Evaluator,RulesEngine}.js`.

Modelling conventions:

* JavaScript values are embedded as the inductive `Val` (null, booleans,
  numbers, strings, arrays, objects).  JS numbers are modelled as `Int`:
  no claim depends on fractional values.
* An absent property (`undefined`) is modelled as `Option.none` at the
  points where the source tests `undefined === x` or indexes a record.
* Code that can throw (rule-reference lookup, the `in` operator on a
  primitive, `for..of` on a non-iterable, calling `.includes` on a value
  that has no such method) is embedded in `Except EvalErr`.
* Rule-reference recursion has no termination guarantee in the source
  (cyclic references recurse without bound), so the recursive walkers
  take a fuel parameter; exhausting it yields the distinguished error
  `EvalErr.depthExceeded`, which stands for the stack overflow the
  source would produce.
* The regular-expression engine (`new RegExp(p).test(s)`) is a parameter
  `rt : String → String → Bool` (pattern, then subject), and the
  pattern-compilation validity test used by the validator is a parameter
  `rxOk : String → Bool`.  No claim depends on a concrete regex engine.
* Stored rules keep their `custom.conditions` attribute as a JSON string
  in the platform; `StoredRule.conditions` holds the result of the
  `JSON.parse` the source performs on it, since no claim concerns
  malformed stored JSON.
* JS `===` on two objects or two arrays is reference equality; values
  compared by the engine always come from distinct sources (the rule
  versus the criteria), so composite values are never identical and
  `veq` returns `false` for them.
-/

namespace SFRE

/-- A JavaScript (JSON-shaped) value. -/
inductive Val where
  | vNull
  | vBool (b : Bool)
  | vNum (n : Int)
  | vStr (s : String)
  | vArr (elems : List Val)
  | vObj (fields : List (String × Val))
deriving Repr

/-- Errors that abort an evaluation or validation call (JS exceptions),
plus the fuel sentinel standing in for stack overflow on cyclic
rule references. -/
inductive EvalErr where
  | lookupFailed (id : String)
  | typeError (msg : String)
  | invalidNode
  | depthExceeded
deriving Repr, DecidableEq

/-- A stored rule as the engine sees it: the SFCC custom object's
`custom.id` and the parse of its `custom.conditions` JSON string. -/
structure StoredRule where
  id : String
  conditions : Val

/-- `ValidationResult` of the Validator: `{isValid, error?: {message, element}}`. -/
structure VError where
  message : String
  element : Val
deriving Repr

/-- The validation result record returned by `Validator.validate`. -/
structure VResult where
  isValid : Bool
  error : Option VError
deriving Repr

/-- JS truthiness of a defined value. -/
def truthy : Val → Bool
  | .vNull => false
  | .vBool b => b
  | .vNum n => n != 0
  | .vStr s => !s.isEmpty
  | .vArr _ => true
  | .vObj _ => true

/-- JS strict equality `===`.  Primitives compare by value; objects and
arrays compare by reference, and the two sides always originate from
distinct sources in this engine, hence `false`. -/
def veq : Val → Val → Bool
  | .vNull, .vNull => true
  | .vBool a, .vBool b => a == b
  | .vNum a, .vNum b => a == b
  | .vStr a, .vStr b => a == b
  | _, _ => false

/-- `Array.isArray`. -/
def isArr : Val → Bool
  | .vArr _ => true
  | _ => false

/-- Property access `v[k]` (also `v.k`); `none` is JS `undefined`.
Property access on `null` throws in JS; every use in the embedded code
is behind an object check or unreachable for `null`, so the model
totalises it to `undefined`. -/
def getProp (v : Val) (k : String) : Option Val :=
  match v with
  | .vObj fields => (fields.find? (fun p => p.1 == k)).map (fun p => p.2)
  | .vArr xs =>
    match k.toNat? with
    | some i => xs[i]?
    | none => none
  | _ => none

/-- Key-presence test used where the source writes `'k' in obj` on a
value already known to be an object. -/
def hasKeyB (v : Val) (k : String) : Bool :=
  match v with
  | .vObj fields => fields.any (fun p => p.1 == k)
  | _ => false

/-- The JS `in` operator, which throws a TypeError on non-objects.
Array index/length keys are not modelled; the engine only probes the
keys any/all/none/result, which arrays do not carry. -/
def jsHasKey (v : Val) (k : String) : Except EvalErr Bool :=
  match v with
  | .vObj fields => .ok (fields.any (fun p => p.1 == k))
  | .vArr _ => .ok false
  | _ => .error (.typeError "cannot use the in operator against a non object")

mutual

/-- JS `String()` / template-literal stringification; also the source
string `new RegExp(x)` compiles when `x` is not already a string. -/
def jsToString : Val → String
  | .vNull => "null"
  | .vBool b => if b then "true" else "false"
  | .vNum n => toString n
  | .vStr s => s
  | .vArr xs => String.intercalate "," (jsToStringElems xs)
  | .vObj _ => "[object Object]"

/-- Elementwise stringification for `Array.prototype.join`, where a
null (or undefined) element prints as the empty string. -/
def jsToStringElems : List Val → List String
  | [] => []
  | .vNull :: rest => "" :: jsToStringElems rest
  | v :: rest => jsToString v :: jsToStringElems rest

end

/-- JS `ToNumber`, approximately: enough for the ordering operators,
on which no claim depends beyond their totality.  `none` plays NaN. -/
def toNum : Val → Option Int
  | .vNull => some 0
  | .vBool b => some (if b then 1 else 0)
  | .vNum n => some n
  | .vStr s => if s.trim.isEmpty then some 0 else s.trim.toInt?
  | _ => none

/-- JS `a < b` (strings lexicographic, otherwise numeric; NaN compares false). -/
def jsLt (a b : Val) : Bool :=
  match a, b with
  | .vStr x, .vStr y => decide (x < y)
  | _, _ =>
    match toNum a, toNum b with
    | some m, some n => decide (m < n)
    | _, _ => false

/-- JS `a > b`. -/
def jsGt (a b : Val) : Bool := jsLt b a

/-- JS `a <= b`. -/
def jsLe (a b : Val) : Bool :=
  match a, b with
  | .vStr x, .vStr y => decide (x ≤ y)
  | _, _ =>
    match toNum a, toNum b with
    | some m, some n => decide (m ≤ n)
    | _, _ => false

/-- JS `a >= b`. -/
def jsGe (a b : Val) : Bool := jsLe b a

/-- Modelled from the spec: the SFCC platform global `empty()` is not in
the repository; the spec describes it behaviorally as true exactly on
absent, null, empty string, empty sequence and empty record values
(never on the number 0 or on false).  The argument here is always a
defined value (the caller has already handled `undefined`). -/
def empty : Val → Bool
  | .vNull => true
  | .vStr s => s.isEmpty
  | .vArr xs => xs.isEmpty
  | .vObj fields => fields.isEmpty
  | _ => false

/-- Membership of `target` in the array `arr` with `===` element
comparison (`Array.prototype.includes` on the values this engine sees). -/
def arrMem (arr target : Val) : Bool :=
  match arr with
  | .vArr xs => xs.any (fun x => veq x target)
  | _ => false

/-- Substring test backing `String.prototype.includes`. -/
def strIncludes (s pat : String) : Bool :=
  pat.isEmpty || (s.splitOn pat).length != 1

/-- The unguarded `criterion.includes(x)` call of the `contains any`
operators: defined for arrays and strings, a TypeError otherwise. -/
def jsIncludes (criterion x : Val) : Except EvalErr Bool :=
  match criterion with
  | .vArr xs => .ok (xs.any (fun y => veq y x))
  | .vStr s => .ok (strIncludes s (jsToString x))
  | _ => .error (.typeError "criterion.includes is not a function")

/-- `value.some((x) => criterion.includes(x))`, short-circuiting like
`Array.prototype.some`. -/
def someIncludes (criterion : Val) : List Val → Except EvalErr Bool
  | [] => .ok false
  | x :: rest => do
    if (← jsIncludes criterion x) then pure true else someIncludes criterion rest

/-! ## ObjectDiscovery -/

/-- `ObjectDiscovery.isObject`: a non-null, non-array structured record. -/
def isObject : Val → Bool
  | .vObj _ => true
  | _ => false

/-- The three condition branch kinds returned by
`ObjectDiscovery.conditionType` (the source returns the strings
`any`/`all`/`none`, or `null`). -/
inductive CondType where
  | anyOf
  | allOf
  | noneOf
deriving Repr, DecidableEq

/-- The object key probed for a branch kind. -/
def ctKey : CondType → String
  | .anyOf => "any"
  | .allOf => "all"
  | .noneOf => "none"

/-- `ObjectDiscovery.conditionType`: probes `any`, then `all`, then
`none` with the JS `in` operator (which throws on primitives). -/
def conditionType (condition : Val) : Except EvalErr (Option CondType) := do
  if (← jsHasKey condition "any") then pure (some .anyOf)
  else if (← jsHasKey condition "all") then pure (some .allOf)
  else if (← jsHasKey condition "none") then pure (some .noneOf)
  else pure none

/-- `ObjectDiscovery.isCondition`: an object carrying at least one of
the keys any/all/none. -/
def isCondition (obj : Val) : Bool :=
  if !isObject obj then false
  else hasKeyB obj "any" || hasKeyB obj "all" || hasKeyB obj "none"

/-- `ObjectDiscovery.isConstraint`: an object carrying the keys
field, operator and value. -/
def isConstraint (obj : Val) : Bool :=
  if !isObject obj then false
  else hasKeyB obj "field" && hasKeyB obj "operator" && hasKeyB obj "value"

/-- `ObjectDiscovery.resolveNestedProperty`: splits the path on `.` and
reduces, yielding `undefined` as soon as the accumulator is falsy. -/
def resolveNestedProperty (path : String) (obj : Val) : Option Val :=
  (path.splitOn ".").foldl
    (fun prev curr =>
      match prev with
      | some v => if truthy v then getProp v curr else none
      | none => none)
    (some obj)

/-! ## Evaluator -/

/-- `Evaluator._getById` (identical code in `Validator._getById`):
first stored rule whose `custom.id` matches, else a thrown error
`Invalid rule reference. <id> does not reference any known rule.`;
on success the parse of its `custom.conditions`. -/
def getById (rules : List StoredRule) (id : String) : Except EvalErr Val :=
  match rules.find? (fun r => r.id == id) with
  | some r => .ok r.conditions
  | none => .error (.lookupFailed id)

/-- The string-reference resolution step shared by both walkers:
`if (typeof node === 'string') node = this._getById(node);`. -/
def resolveNode (rules : List StoredRule) (node : Val) : Except EvalErr Val :=
  match node with
  | .vStr s => getById rules s
  | _ => .ok node

/-- `constraint.field.includes('.') ? resolveNestedProperty(...) : criteria[field]`
(Evaluator lines 149-151). -/
def resolveField (field : String) (criteria : Val) : Option Val :=
  if field.toList.contains '.' then resolveNestedProperty field criteria
  else getProp criteria field

/-- `Evaluator._checkConstraint`.  `rt pattern subject` is the
parameterized `new RegExp(pattern).test(subject)`. -/
def checkConstraint (rt : String → String → Bool) (constraint criteria : Val) :
    Except EvalErr Bool := do
  match (getProp constraint "field").getD .vNull with
  | .vStr field =>
    match resolveField field criteria with
    | none => pure false
    | some criterion =>
      let value := (getProp constraint "value").getD .vNull
      match (getProp constraint "operator").getD .vNull with
      | .vStr op =>
        if op == "equals" then pure (veq criterion value)
        else if op == "does not equal" then pure (!veq criterion value)
        else if op == "greater than" then pure (jsGt criterion value)
        else if op == "greater than or equal" then pure (jsGe criterion value)
        else if op == "less than" then pure (jsLt criterion value)
        else if op == "less than or equal" then pure (jsLe criterion value)
        else if op == "exists" then pure (!empty criterion)
        else if op == "does not exist" then pure (empty criterion)
        else if op == "in" then pure (isArr value && arrMem value criterion)
        else if op == "not in" then pure (!(isArr value && arrMem value criterion))
        else if op == "contains" then pure (isArr criterion && arrMem criterion value)
        else if op == "not contains" then pure (!(isArr criterion && arrMem criterion value))
        else if op == "contains any" then
          match value with
          | .vArr xs => someIncludes criterion xs
          | _ => pure false
        else if op == "not contains any" then
          match value with
          | .vArr xs => do pure (!(← someIncludes criterion xs))
          | _ => pure true
        else if op == "matches" then pure (rt (jsToString criterion) (jsToString value))
        else if op == "does not match" then pure (!rt (jsToString criterion) (jsToString value))
        else pure false
      | _ => pure false
  | _ => throw (.typeError "constraint field has no includes method")

/-- The fold seed of `_evaluateCondition`:
`['all', 'none'].includes(type)`. -/
def initAcc : CondType → Bool
  | .anyOf => false
  | .allOf => true
  | .noneOf => true

/-- One step of the fold of `_evaluateCondition`:
any: `acc || r`; all: `acc && r`; none: `acc && !r`. -/
def combineAcc : CondType → Bool → Bool → Bool
  | .anyOf, acc, r => acc || r
  | .allOf, acc, r => acc && r
  | .noneOf, acc, r => acc && !r

/-- JS `for..of` iteration: arrays yield their elements, strings their
characters (as one-character strings), all else throws. -/
def iterate (v : Val) : Except EvalErr (List Val) :=
  match v with
  | .vArr xs => .ok xs
  | .vStr s => .ok (s.toList.map (fun ch => .vStr (String.singleton ch)))
  | _ => .error (.typeError "value is not iterable")

/-- The node loop inside `Evaluator._evaluateCondition` (lines 105-135):
resolve a string reference, classify, evaluate conditions through the
supplied recursive call and constraints through `checkConstraint`,
fold into the accumulator; an unclassifiable node makes the whole
condition return `false` immediately (the source logs and returns). -/
def evalNodes (rules : List StoredRule) (rt : String → String → Bool)
    (recur : Val → Val → Except EvalErr Bool) (t : CondType) (criteria : Val) :
    List Val → Bool → Except EvalErr Bool
  | [], acc => .ok acc
  | node :: rest, acc => do
    let node ← resolveNode rules node
    if isCondition node then do
      let r ← recur node criteria
      evalNodes rules rt recur t criteria rest (combineAcc t acc r)
    else if isConstraint node then do
      let r ← checkConstraint rt node criteria
      evalNodes rules rt recur t criteria rest (combineAcc t acc r)
    else .ok false

/-- `Evaluator._evaluateCondition`, with fuel for the unbounded
rule-reference recursion. -/
def evalCondition (rules : List StoredRule) (rt : String → String → Bool) :
    Nat → Val → Val → Except EvalErr Bool
  | 0, _, _ => .error .depthExceeded
  | Nat.succ fuel, condition, criteria => do
    match (← conditionType condition) with
    | none => pure false
    | some t => do
      let nodes ← iterate ((getProp condition (ctKey t)).getD .vNull)
      evalNodes rules rt (evalCondition rules rt fuel) t criteria nodes (initAcc t)

/-- The result a satisfied top-level condition yields
(`typeof condition.result === 'boolean' ? condition.result : true`). -/
def resultField (condition : Val) : Bool :=
  match getProp condition "result" with
  | some (.vBool b) => b
  | _ => true

/-- `Evaluator._evaluateRule`: first satisfied top-level condition wins. -/
def evaluateRule (rules : List StoredRule) (rt : String → String → Bool)
    (fuel : Nat) : List Val → Val → Except EvalErr Bool
  | [], _ => .ok false
  | condition :: rest, criteria => do
    let r ← evalCondition rules rt fuel condition criteria
    if r then pure (resultField condition)
    else evaluateRule rules rt fuel rest criteria

/-- `rule.conditions instanceof Array ? rule.conditions : [rule.conditions]`
(used identically by `Evaluator.evaluate` and `Validator.validate`).
An absent `conditions` property wraps to `[null]` here where the source
wraps `[undefined]`; both throw the same TypeError downstream. -/
def normalizeConditions (rule : Val) : List Val :=
  match getProp rule "conditions" with
  | some (.vArr xs) => xs
  | some v => [v]
  | none => [.vNull]

/-- `Evaluator.evaluate`: elementwise over an array of criteria,
direct otherwise. -/
def evaluate (rules : List StoredRule) (rt : String → String → Bool)
    (fuel : Nat) (rule criteria : Val) : Except EvalErr Val :=
  let conditions := normalizeConditions rule
  match criteria with
  | .vArr cs => do
    let bs ← cs.mapM (fun c => evaluateRule rules rt fuel conditions c)
    pure (.vArr (bs.map .vBool))
  | c => do
    let b ← evaluateRule rules rt fuel conditions c
    pure (.vBool b)

/-! ## Validator -/

/-- Merging a sub-result into the running result
(`result.isValid = result.isValid && sub.isValid;
result.error = result.error ? result.error : sub.error`). -/
def mergeR (a s : VResult) : VResult :=
  ⟨a.isValid && s.isValid,
   match a.error with
   | some e => some e
   | none => s.error⟩

/-- The operator enumeration of `Validator._validateConstraint`. -/
def operators : List String :=
  ["equals", "does not equal", "greater than", "less than",
   "greater than or equal", "less than or equal", "exists", "does not exist",
   "in", "not in", "contains", "not contains", "contains any",
   "not contains any", "matches", "does not match"]

/-- `Validator._validateConstraint`.  `rxOk src` is the parameterized
success of `new RegExp(src)` (the constructor stringifies a non-string
argument, hence `jsToString`). -/
def validateConstraint (rxOk : String → Bool) (constraint : Val) : VResult :=
  match getProp constraint "field" with
  | some (.vStr _) =>
    match (getProp constraint "operator").getD .vNull with
    | .vStr op =>
      if !operators.contains op then
        ⟨false, some ⟨"Constraint \"operator\" has invalid type.", constraint⟩⟩
      else if (["in", "not in", "contains any", "not contains any"].contains op)
          && !isArr ((getProp constraint "value").getD .vNull) then
        ⟨false, some ⟨"Constraint \"value\" must be an array if the \"operator\" is in [\"in\", \"not in\", \"contains any\", \"not contains any\"]", constraint⟩⟩
      else if (["matches", "does not match"].contains op)
          && !rxOk (jsToString ((getProp constraint "value").getD .vNull)) then
        ⟨false, some ⟨"Constraint \"value\" must be a valid regular expression if the \"operator\" is in [\"matches\", \"not matches\"]", constraint⟩⟩
      else ⟨true, none⟩
    | _ =>
      ⟨false, some ⟨"Constraint \"operator\" has invalid type.", constraint⟩⟩
  | _ =>
    ⟨false, some ⟨"Constraint \"field\" must be of type string.", constraint⟩⟩

/-- `Validator._isValidCondition`: an object classified as a condition
that does not carry more than one of any/all/none. -/
def isValidCondition (obj : Val) : VResult :=
  if !isCondition obj then
    ⟨false, some ⟨"Invalid condition structure.", obj⟩⟩
  else
    let a := hasKeyB obj "any"
    let l := hasKeyB obj "all"
    let n := hasKeyB obj "none"
    if (a && l) || (a && n) || (l && n) then
      ⟨false, some ⟨"A condition cannot have more than one \"any\", \"all\", or \"none\" property.", obj⟩⟩
    else ⟨true, none⟩

/-- The node loop of `Validator._validateCondition` (lines 371-416):
resolve a string reference, recurse into conditions via `recur`,
validate constraints, merge each sub-result; an unclassifiable node or
a `result` key on a nested condition returns immediately; a failed
running result breaks out of the loop. -/
def validateNodes (rules : List StoredRule) (rxOk : String → Bool)
    (recur : Val → Nat → Except EvalErr VResult) (condition : Val) (depth : Nat) :
    List Val → VResult → Except EvalErr VResult
  | [], acc => .ok acc
  | node :: rest, acc => do
    let node ← resolveNode rules node
    let isCnd := isCondition node
    let isCst := isConstraint node
    let acc ←
      if isCnd then do
        let sub ← recur node (depth + 1)
        pure (mergeR acc sub)
      else if isCst then
        pure (mergeR acc (validateConstraint rxOk node))
      else pure acc
    if !isCnd && !isCst then
      pure ⟨false, some ⟨"Each node should be a condition or constraint.", node⟩⟩
    else if decide (0 < depth) && hasKeyB condition "result" then
      pure ⟨false, some ⟨"Nested conditions cannot have a property \"result\".", node⟩⟩
    else if !acc.isValid then
      pure acc
    else
      validateNodes rules rxOk recur condition depth rest acc

/-- `Validator._validateCondition`, with fuel for the unbounded
rule-reference recursion. -/
def validateCondition (rules : List StoredRule) (rxOk : String → Bool) :
    Nat → Val → Nat → Except EvalErr VResult
  | 0, _, _ => .error .depthExceeded
  | Nat.succ fuel, condition0, depth => do
    let condition ← resolveNode rules condition0
    let r0 := isValidCondition condition
    if !r0.isValid then
      pure r0
    else do
      let t? ← conditionType condition
      let key := (t?.map ctKey).getD "null"
      match (getProp condition key).getD .vNull with
      | .vArr nodes =>
        validateNodes rules rxOk (validateCondition rules rxOk fuel) condition depth nodes r0
      | _ =>
        pure ⟨false, some ⟨"The condition \x27" ++ key ++ "\x27 should be iterable.", condition⟩⟩

/-- The guard of `Validator.validate` lines 292-296: an empty top-level
sequence, or a first element that is an empty object. -/
def emptyCheckGuard (conds : List Val) : Bool :=
  conds.isEmpty
    || (isObject (conds.headD .vNull)
        && (match conds.headD .vNull with
            | .vObj fields => fields.isEmpty
            | _ => false))

/-- The top-level loop of `Validator.validate` (lines 306-312): every
top-level condition is visited, results are merged with `mergeR`. -/
def validateTop (rules : List StoredRule) (rxOk : String → Bool) (fuel : Nat) :
    List Val → VResult → Except EvalErr VResult
  | [], acc => .ok acc
  | c :: rest, acc => do
    let sub ← validateCondition rules rxOk fuel c 0
    validateTop rules rxOk fuel rest (mergeR acc sub)

/-- `Validator.validate`. -/
def validate (rules : List StoredRule) (rxOk : String → Bool) (fuel : Nat)
    (rule : Val) : Except EvalErr VResult :=
  if !isObject rule then
    .ok ⟨false, some ⟨"The rule must be a valid JSON object.", rule⟩⟩
  else
    let conditions := normalizeConditions rule
    if emptyCheckGuard conditions then
      .ok ⟨false, some ⟨"The conditions property must contain at least one condition.", rule⟩⟩
    else
      validateTop rules rxOk fuel conditions ⟨true, none⟩

/-! ## Characterization helpers

Specification-side functions used to state the claims; they repackage
the loop body of `evalNodes` and `evaluateRule` so the fold/first-match
semantics can be written down without mentioning accumulators. -/

/-- One iteration of the `_evaluateCondition` node loop, with the
recursive condition call abstracted: resolve a string reference, then
dispatch to the condition evaluator or to `checkConstraint`; an
unclassifiable node is the distinguished error `invalidNode` (the loop
turns it into an immediate `false`). -/
def nodeEvalWith (recur : Val → Val → Except EvalErr Bool) (rules : List StoredRule)
    (rt : String → String → Bool) (node criteria : Val) : Except EvalErr Bool := do
  let node ← resolveNode rules node
  if isCondition node then recur node criteria
  else if isConstraint node then checkConstraint rt node criteria
  else .error .invalidNode

/-- The boolean a node evaluates to, defaulting to `false` on error
(only used under a hypothesis ruling the error out). -/
def nodeBoolW (recur : Val → Val → Except EvalErr Bool) (rules : List StoredRule)
    (rt : String → String → Bool) (criteria node : Val) : Bool :=
  match nodeEvalWith recur rules rt node criteria with
  | .ok b => b
  | .error _ => false

/-- Node evaluation at a given fuel. -/
def nodeEval (rules : List StoredRule) (rt : String → String → Bool) (fuel : Nat)
    (node criteria : Val) : Except EvalErr Bool :=
  nodeEvalWith (evalCondition rules rt fuel) rules rt node criteria

/-- Whether a node evaluates satisfied at a given fuel. -/
def nodeSat (rules : List StoredRule) (rt : String → String → Bool) (fuel : Nat)
    (criteria node : Val) : Bool :=
  nodeBoolW (evalCondition rules rt fuel) rules rt criteria node

/-- Whether a top-level condition evaluates satisfied at a given fuel
(`false` on error; only used under a hypothesis ruling the error out). -/
def condSat (rules : List StoredRule) (rt : String → String → Bool) (fuel : Nat)
    (criteria cond : Val) : Bool :=
  match evalCondition rules rt fuel cond criteria with
  | .ok b => b
  | .error _ => false

/-- The predicate claim C8 ascribes to `isCondition`: an object with
exactly one of the keys any/all/none present (written from the words
of the claim, for comparison with the source function). -/
def isConditionClaimC8 (v : Val) : Bool :=
  isObject v
    && ((cond (hasKeyB v "any") 1 0) + (cond (hasKeyB v "all") 1 0)
        + (cond (hasKeyB v "none") 1 0) == 1)

/-! ## Concrete inputs used by counterexamples and witnesses -/

/-- A constraint probing absence: `{field: "x", operator: "does not exist"}`. -/
def c3Constraint : Val :=
  .vObj [("field", .vStr "x"), ("operator", .vStr "does not exist"), ("value", .vNull)]

/-- A rule whose branch holds an invalid node followed by an unknown
rule reference: `{conditions: {all: [42, "ghost"]}}`. -/
def c4Rule : Val :=
  .vObj [("conditions", .vObj [("all", .vArr [.vNum 42, .vStr "ghost"])])]

/-- The condition `{all: [id]}` holding a single string rule reference. -/
def refInner (id : String) : Val := .vObj [("all", .vArr [.vStr id])]

/-- The rule `{conditions: {all: [id]}}` whose only node is a string
rule reference. -/
def refRule (id : String) : Val := .vObj [("conditions", refInner id)]

/-- The rule `{conditions: {all: []}}` with an empty branch sequence. -/
def c5Rule : Val := .vObj [("conditions", .vObj [("all", .vArr [])])]

/-- A nested condition with a `result` key and an empty branch:
`{any: [], result: true}`. -/
def c6Inner : Val := .vObj [("any", .vArr []), ("result", .vBool true)]

/-- The rule `{conditions: {all: [{any: [], result: true}]}}`. -/
def c6Rule : Val := .vObj [("conditions", .vObj [("all", .vArr [c6Inner])])]

/-- An object carrying both an `any` and an `all` key. -/
def c8x : Val := .vObj [("any", .vArr []), ("all", .vArr [])]

/-- The constraint `{field: "x", operator: "contains any", value: ["a"]}`. -/
def c10Constraint : Val :=
  .vObj [("field", .vStr "x"), ("operator", .vStr "contains any"), ("value", .vArr [.vStr "a"])]

/-- The rule `{conditions: {all: [c10Constraint]}}`. -/
def c10Rule : Val := .vObj [("conditions", .vObj [("all", .vArr [c10Constraint])])]

/-- The criteria `{x: 5}`, whose field `x` is a number and therefore
has no `includes` method. -/
def c10Criteria : Val := .vObj [("x", .vNum 5)]

/-- The constraint `{field: "p", operator: "equals", value: true}`. -/
def wConstraintTrue : Val :=
  .vObj [("field", .vStr "p"), ("operator", .vStr "equals"), ("value", .vBool true)]

/-- The constraint `{field: "q", operator: "equals", value: true}`. -/
def wConstraintQ : Val :=
  .vObj [("field", .vStr "q"), ("operator", .vStr "equals"), ("value", .vBool true)]

/-- The condition `{all: [wConstraintTrue, wConstraintQ]}`. -/
def wCondAll : Val := .vObj [("all", .vArr [wConstraintTrue, wConstraintQ])]

/-- The criteria `{p: true, q: false}`. -/
def wCriteriaPQ : Val := .vObj [("p", .vBool true), ("q", .vBool false)]

/-- The constraint of the README basic example:
`{field: "pushEnabled", operator: "equals", value: false}`. -/
def wPushConstraint : Val :=
  .vObj [("field", .vStr "pushEnabled"), ("operator", .vStr "equals"), ("value", .vBool false)]

/-- The condition `{all: [wPushConstraint]}`. -/
def wPushCond : Val := .vObj [("all", .vArr [wPushConstraint])]

/-- The rule of the README basic example:
`{conditions: {all: [wPushConstraint]}}`. -/
def wPushRule : Val := .vObj [("conditions", wPushCond)]

/-- The constraint `{field: "x", operator: "matches", value: "z"}`. -/
def c9Constraint : Val :=
  .vObj [("field", .vStr "x"), ("operator", .vStr "matches"), ("value", .vStr "z")]

/-- The criteria `{x: "abc"}`: the resolved criterion is the pattern. -/
def c9Criteria : Val := .vObj [("x", .vStr "abc")]

/-- A top-level condition whose branch value is not an array:
`{all: "nope"}` (validates to a failed result without throwing). -/
def c7CondA : Val := .vObj [("all", .vStr "nope")]

/-- A valid top-level condition `{all: [wConstraintTrue]}`. -/
def c7CondB : Val := .vObj [("all", .vArr [wConstraintTrue])]

/-- A rule with two top-level conditions, the first structurally bad:
`{conditions: [c7CondA, c7CondB]}`. -/
def c7Rule : Val := .vObj [("conditions", .vArr [c7CondA, c7CondB])]

/-- The per-condition validation outcome function used by the C7
witness (defaults to a valid result on a thrown error, which does not
occur on these inputs). -/
def c7r (c : Val) : VResult :=
  match validateCondition [] (fun _ => true) 1 c 0 with
  | .ok v => v
  | .error _ => ⟨true, none⟩

/-- The condition `{any: [wConstraintTrue], result: true}`: nested
use is what claim C6 is about. -/
def c6wCond : Val := .vObj [("any", .vArr [wConstraintTrue]), ("result", .vBool true)]

/-! ## Helper lemmas -/

theorem ok_bind {α β : Type} (a : α) (f : α → Except EvalErr β) :
    (Except.ok a >>= f) = f a := rfl

theorem err_bind {α β : Type} (e : EvalErr) (f : α → Except EvalErr β) :
    ((Except.error e : Except EvalErr α) >>= f) = Except.error e := rfl

theorem pure_ok {α : Type} (a : α) : (pure a : Except EvalErr α) = Except.ok a := rfl

theorem foldl_and_all {α : Type} (f : α → Bool) :
    ∀ (l : List α) (acc : Bool), l.foldl (fun a x => a && f x) acc = (acc && l.all f)
  | [], acc => by simp
  | x :: xs, acc => by
    simp only [List.foldl_cons, List.all_cons, foldl_and_all f xs, Bool.and_assoc]

theorem foldl_or_any {α : Type} (f : α → Bool) :
    ∀ (l : List α) (acc : Bool), l.foldl (fun a x => a || f x) acc = (acc || l.any f)
  | [], acc => by simp
  | x :: xs, acc => by
    simp only [List.foldl_cons, List.any_cons, foldl_or_any f xs, Bool.or_assoc]

/-- The node loop of the evaluator computes the fold of `combineAcc`
over the node evaluations, provided every node evaluates cleanly. -/
theorem evalNodes_fold (rules : List StoredRule) (rt : String → String → Bool)
    (recur : Val → Val → Except EvalErr Bool) (t : CondType) (criteria : Val) :
    ∀ (nodes : List Val) (acc : Bool),
      (∀ n ∈ nodes, ∃ b, nodeEvalWith recur rules rt n criteria = .ok b) →
      evalNodes rules rt recur t criteria nodes acc =
        .ok (nodes.foldl (fun a n => combineAcc t a (nodeBoolW recur rules rt criteria n)) acc)
  | [], acc, _ => rfl
  | n :: ns, acc, h => by
    obtain ⟨b, hb⟩ := h n (List.mem_cons_self n ns)
    have hrest : ∀ m ∈ ns, ∃ b, nodeEvalWith recur rules rt m criteria = .ok b :=
      fun m hm => h m (List.mem_cons_of_mem n hm)
    have hbool : nodeBoolW recur rules rt criteria n = b := by
      unfold nodeBoolW; rw [hb]
    rw [List.foldl_cons, hbool]
    unfold nodeEvalWith at hb
    cases hres : resolveNode rules n with
    | error e =>
      rw [hres, err_bind] at hb
      exact Except.noConfusion hb
    | ok n2 =>
      rw [hres, ok_bind] at hb
      simp only [evalNodes]
      rw [hres, ok_bind]
      by_cases hc : isCondition n2 = true
      · rw [if_pos hc] at hb ⊢
        rw [hb, ok_bind]
        exact evalNodes_fold rules rt recur t criteria ns (combineAcc t acc b) hrest
      · rw [if_neg hc] at hb ⊢
        by_cases hk : isConstraint n2 = true
        · rw [if_pos hk] at hb ⊢
          rw [hb, ok_bind]
          exact evalNodes_fold rules rt recur t criteria ns (combineAcc t acc b) hrest
        · rw [if_neg hk] at hb
          exact Except.noConfusion hb

/-- The top-level loop of `_evaluateRule` returns the result of the
first satisfied condition, provided every top-level condition
evaluates cleanly. -/
theorem evaluateRule_firstSat (rules : List StoredRule) (rt : String → String → Bool)
    (fuel : Nat) (criteria : Val) :
    ∀ (conds : List Val),
      (∀ c ∈ conds, ∃ b, evalCondition rules rt fuel c criteria = .ok b) →
      evaluateRule rules rt fuel conds criteria =
        .ok (match conds.find? (fun c => condSat rules rt fuel criteria c) with
          | some c => resultField c
          | none => false)
  | [], _ => rfl
  | c :: cs, h => by
    obtain ⟨b, hb⟩ := h c (List.mem_cons_self c cs)
    have hcs : condSat rules rt fuel criteria c = b := by
      unfold condSat; rw [hb]
    have hrest : ∀ d ∈ cs, ∃ b, evalCondition rules rt fuel d criteria = .ok b :=
      fun d hd => h d (List.mem_cons_of_mem c hd)
    simp only [evaluateRule]
    rw [hb, ok_bind]
    cases b with
    | true =>
      rw [if_pos rfl, List.find?_cons_of_pos _ hcs]
      rfl
    | false =>
      rw [if_neg (by simp), List.find?_cons_of_neg _ (by simp [hcs])]
      exact evaluateRule_firstSat rules rt fuel criteria cs hrest

/-- The top-level loop of `Validator.validate` ANDs the per-condition
verdicts and keeps the first error, provided every top-level condition
validates without a thrown error. -/
theorem validateTop_spec (rules : List StoredRule) (rxOk : String → Bool) (fuel : Nat)
    (r : Val → VResult) :
    ∀ (conds : List Val) (acc : VResult),
      (∀ c ∈ conds, validateCondition rules rxOk fuel c 0 = .ok (r c)) →
      validateTop rules rxOk fuel conds acc =
        .ok ⟨acc.isValid && conds.all (fun c => (r c).isValid),
             match acc.error with
             | some e => some e
             | none => conds.findSome? (fun c => (r c).error)⟩
  | [], acc, _ => by
    cases acc with
    | mk iv err => cases err <;> simp [validateTop, List.findSome?_nil]
  | c :: cs, acc, h => by
    have hrest : ∀ d ∈ cs, validateCondition rules rxOk fuel d 0 = .ok (r d) :=
      fun d hd => h d (List.mem_cons_of_mem c hd)
    simp only [validateTop]
    rw [h c (List.mem_cons_self c cs), ok_bind,
      validateTop_spec rules rxOk fuel r cs (mergeR acc (r c)) hrest]
    cases acc with
    | mk iv err =>
      cases err with
      | none =>
        simp only [mergeR, List.all_cons, List.findSome?_cons, Bool.and_assoc]
        cases herr : (r c).error <;> simp [herr]
      | some e =>
        simp [mergeR, List.all_cons, Bool.and_assoc]

/-- A string node whose identifier is unknown makes the validator node
loop throw the lookup error. -/
theorem validateNodes_strRef (rules : List StoredRule) (rxOk : String → Bool)
    (recur : Val → Nat → Except EvalErr VResult) (condition : Val) (depth : Nat)
    (id : String) (rest : List Val) (acc : VResult)
    (h : getById rules id = .error (.lookupFailed id)) :
    validateNodes rules rxOk recur condition depth (.vStr id :: rest) acc =
      .error (.lookupFailed id) := by
  simp only [validateNodes, resolveNode, h, err_bind]

/-- A string node whose identifier is unknown makes the evaluator node
loop throw the lookup error. -/
theorem evalNodes_strRef (rules : List StoredRule) (rt : String → String → Bool)
    (recur : Val → Val → Except EvalErr Bool) (t : CondType) (criteria : Val)
    (id : String) (rest : List Val) (acc : Bool)
    (h : getById rules id = .error (.lookupFailed id)) :
    evalNodes rules rt recur t criteria (.vStr id :: rest) acc =
      .error (.lookupFailed id) := by
  simp only [evalNodes, resolveNode, h, err_bind]

/-! ## Claim theorems -/

/-- C3: the claim says a constraint whose field resolves to an absent
value returns false for every operator except exists and does not
exist, with does not exist satisfied on an absent field.  The code
short-circuits on `undefined === criterion` before the operator switch,
so at the failing input — constraint
`{field: "x", operator: "does not exist"}` against the empty criteria
record, where the field is absent — `checkConstraint` returns `false`
instead of the `true` the claim (and the README, which documents the
operator as applying the platform `empty()` test to the criterion)
requires. -/
theorem c3_absent_field_false_even_for_does_not_exist :
    resolveField "x" (.vObj []) = none ∧
    checkConstraint (fun _ _ => false) c3Constraint (.vObj []) = .ok false :=
  ⟨rfl, rfl⟩

/-- C4 counterexample: a rule that contains a string reference node
with an unknown identifier, shadowed by an earlier invalid node, makes
neither `Validator.validate` nor `Evaluator.evaluate` throw: the
validator folds an ordinary result and the evaluator returns the
boolean false, even though the identifier is unknown to the store. -/
theorem c4_unreached_reference_not_thrown :
    getById [] "ghost" = .error (.lookupFailed "ghost") ∧
    validate [] (fun _ => true) 3 c4Rule =
      .ok ⟨false, some ⟨"Each node should be a condition or constraint.", .vNum 42⟩⟩ ∧
    evaluate [] (fun _ _ => false) 3 c4Rule (.vObj []) = .ok (.vBool false) :=
  ⟨rfl, rfl, rfl⟩

/-- C4 amended: when the walk actually resolves a string reference
whose identifier matches no stored rule, both `Validator.validate` and
`Evaluator.evaluate` fail with the thrown lookup error, which
propagates to the caller instead of being folded into a
ValidationResult or returned as a boolean. -/
theorem c4_reached_reference_error_propagates (rules : List StoredRule)
    (rxOk : String → Bool) (rt : String → String → Bool) (n : Nat)
    (cs : List (String × Val)) (id : String)
    (hfind : rules.find? (fun r => r.id == id) = none) :
    validate rules rxOk (n + 1) (refRule id) = .error (.lookupFailed id) ∧
    evaluate rules rt (n + 1) (refRule id) (.vObj cs) = .error (.lookupFailed id) := by
  have hget : getById rules id = .error (.lookupFailed id) := by
    unfold getById; rw [hfind]
  constructor
  · have b1 : validate rules rxOk (n + 1) (refRule id) =
        (validateNodes rules rxOk (validateCondition rules rxOk n) (refInner id) 0
            [.vStr id] ⟨true, none⟩ >>=
          fun sub => validateTop rules rxOk (n + 1) [] (mergeR ⟨true, none⟩ sub)) := rfl
    rw [b1, validateNodes_strRef rules rxOk _ _ _ _ _ _ hget, err_bind]
  · have b2 : evaluate rules rt (n + 1) (refRule id) (.vObj cs) =
        ((evalNodes rules rt (evalCondition rules rt n) .allOf (.vObj cs)
            [.vStr id] true >>=
          fun r => if r then pure (resultField (refInner id))
                   else evaluateRule rules rt (n + 1) [] (.vObj cs)) >>=
          fun b => pure (.vBool b)) := rfl
    rw [b2, evalNodes_strRef rules rt _ _ _ _ _ _ hget, err_bind, err_bind]

/-- C4 witness for the amended theorem: with an empty store, the rule
referencing "ghost" makes both calls fail with the lookup error. -/
theorem c4_reached_reference_error_propagates_witness :
    validate [] (fun _ => true) 1 (refRule "ghost") = .error (.lookupFailed "ghost") ∧
    evaluate [] (fun _ _ => false) 1 (refRule "ghost") (.vObj []) =
      .error (.lookupFailed "ghost") :=
  c4_reached_reference_error_propagates [] (fun _ => true) (fun _ _ => false) 0 [] "ghost" rfl

/-- C5 counterexample: the rule `{conditions: {all: []}}` is accepted
by `Validator.validate` although the sequence under its `all` branch
is empty — the emptiness check only covers the normalized top-level
sequence and its first element, never the branch sequences. -/
theorem c5_empty_branch_accepted :
    validate [] (fun _ => true) 1 c5Rule = .ok ⟨true, none⟩ ∧
    getProp ((normalizeConditions c5Rule).headD .vNull) "all" = some (.vArr []) :=
  ⟨rfl, rfl⟩

/-- C5 amended: what `Validator.validate` does guarantee is the
top-level guard: a rule it accepts has a nonempty normalized
conditions sequence whose first element is not an empty object
(branch sequences deeper in the tree may still be empty). -/
theorem c5_accepted_top_level_guard (rules : List StoredRule) (rxOk : String → Bool)
    (fuel : Nat) (rule : Val) (res : VResult)
    (h : validate rules rxOk fuel rule = .ok res) (hv : res.isValid = true) :
    emptyCheckGuard (normalizeConditions rule) = false := by
  unfold validate at h
  by_cases ho : isObject rule = true
  · rw [ho] at h
    simp only [Bool.not_true, Bool.false_eq_true, if_false] at h
    by_cases hg : emptyCheckGuard (normalizeConditions rule) = true
    · rw [if_pos hg] at h
      cases h
      simp at hv
    · simpa using hg
  · rw [Bool.not_eq_true] at ho
    rw [ho] at h
    simp only [Bool.not_false, if_true] at h
    cases h
    simp at hv

/-- C5 witness for the amended theorem, at the accepted README rule. -/
theorem c5_accepted_top_level_guard_witness :
    emptyCheckGuard (normalizeConditions wPushRule) = false :=
  c5_accepted_top_level_guard [] (fun _ => true) 1 wPushRule ⟨true, none⟩ rfl rfl

/-- C8 counterexample: an object that carries both an `any` and an
`all` key is classified as a condition by `isCondition`, while the
claim (exactly one of the three keys) would classify it as not a
condition. -/
theorem c8_two_keys_still_condition :
    isCondition c8x = true ∧ isConditionClaimC8 c8x = false :=
  ⟨rfl, rfl⟩

/-- C8 amended: `isCondition x` is true iff `isObject x` holds and at
least one of the keys any/all/none is present (the mutual-exclusion
check is left to the Validator). -/
theorem c8_isCondition_at_least_one_key (v : Val) :
    isCondition v =
      (isObject v && (hasKeyB v "any" || hasKeyB v "all" || hasKeyB v "none")) := by
  unfold isCondition
  cases h : isObject v <;> simp [h]

/-- C10: the set operator `contains any` calls `criterion.includes`
without an array guard, so a rule that passes validation — the
constraint `{field: "x", operator: "contains any", value: ["a"]}` is
structurally valid — still makes evaluation throw a TypeError on the
criteria `{x: 5}`, whose resolved field is a defined number with no
`includes` method, instead of returning a boolean. -/
theorem c10_contains_any_throws_after_valid_rule :
    validate [] (fun _ => true) 2 c10Rule = .ok ⟨true, none⟩ ∧
    evaluate [] (fun _ _ => false) 2 c10Rule c10Criteria =
      .error (.typeError "criterion.includes is not a function") :=
  ⟨rfl, rfl⟩

/-- C1: condition evaluation follows the fold semantics of its branch,
provided every child node resolves and evaluates cleanly: an `all`
condition is satisfied iff every child evaluates satisfied (AND-fold
seeded true), an `any` condition iff at least one child does (OR-fold
seeded false), and a `none` condition iff zero children do (AND-fold
of each negation, seeded true). -/
theorem c1_condition_fold_semantics (rules : List StoredRule)
    (rt : String → String → Bool) (fuel : Nat) (cond criteria : Val)
    (t : CondType) (nodes : List Val)
    (ht : conditionType cond = .ok (some t))
    (hnodes : iterate ((getProp cond (ctKey t)).getD .vNull) = .ok nodes)
    (hok : ∀ n ∈ nodes, ∃ b, nodeEval rules rt fuel n criteria = .ok b) :
    evalCondition rules rt (fuel + 1) cond criteria =
      .ok (match t with
        | .allOf => nodes.all (fun n => nodeSat rules rt fuel criteria n)
        | .anyOf => nodes.any (fun n => nodeSat rules rt fuel criteria n)
        | .noneOf => nodes.all (fun n => !nodeSat rules rt fuel criteria n)) := by
  have hok2 : ∀ n ∈ nodes,
      ∃ b, nodeEvalWith (evalCondition rules rt fuel) rules rt n criteria = .ok b := by
    simpa [nodeEval] using hok
  have hstep : evalCondition rules rt (fuel + 1) cond criteria =
      evalNodes rules rt (evalCondition rules rt fuel) t criteria nodes (initAcc t) := by
    simp only [evalCondition, ht, ok_bind, hnodes]
  rw [hstep, evalNodes_fold rules rt (evalCondition rules rt fuel) t criteria nodes
    (initAcc t) hok2]
  cases t with
  | allOf =>
    have hc : ∀ a b, combineAcc CondType.allOf a b = (a && b) := fun _ _ => rfl
    simp only [hc, initAcc, foldl_and_all, Bool.true_and, nodeSat]
  | anyOf =>
    have hc : ∀ a b, combineAcc CondType.anyOf a b = (a || b) := fun _ _ => rfl
    simp only [hc, initAcc, foldl_or_any, Bool.false_or, nodeSat]
  | noneOf =>
    have hc : ∀ a b, combineAcc CondType.noneOf a b = (a && !b) := fun _ _ => rfl
    simp only [hc, initAcc, nodeSat]
    rw [foldl_and_all
      (fun n => !nodeBoolW (evalCondition rules rt fuel) rules rt criteria n) nodes true]
    simp

/-- C1 witness: the `all` condition over a satisfied and an
unsatisfied constraint evaluates to the AND-fold over its children. -/
theorem c1_condition_fold_semantics_witness :
    evalCondition [] (fun _ _ => false) 1 wCondAll wCriteriaPQ =
      .ok ([wConstraintTrue, wConstraintQ].all
        (fun n => nodeSat [] (fun _ _ => false) 0 wCriteriaPQ n)) :=
  c1_condition_fold_semantics [] (fun _ _ => false) 0 wCondAll wCriteriaPQ .allOf
    [wConstraintTrue, wConstraintQ] rfl rfl
    (by
      intro n hn
      simp only [List.mem_cons, List.not_mem_nil, or_false] at hn
      rcases hn with rfl | rfl
      · exact ⟨true, rfl⟩
      · exact ⟨false, rfl⟩)

/-- C2: on a single criteria record, `Evaluator.evaluate` normalizes
`rule.conditions` to a sequence and, provided every top-level
condition evaluates cleanly, returns the `resultField` of the first
satisfied top-level condition (its `result` field when present and
boolean-typed, else true), and false when no top-level condition is
satisfied. -/
theorem c2_evaluate_first_satisfied (rules : List StoredRule)
    (rt : String → String → Bool) (fuel : Nat) (rule : Val)
    (cs : List (String × Val))
    (h : ∀ c ∈ normalizeConditions rule,
      ∃ b, evalCondition rules rt fuel c (.vObj cs) = .ok b) :
    evaluate rules rt fuel rule (.vObj cs) =
      .ok (.vBool (match (normalizeConditions rule).find?
          (fun c => condSat rules rt fuel (.vObj cs) c) with
        | some c => resultField c
        | none => false)) := by
  have h1 := evaluateRule_firstSat rules rt fuel (.vObj cs) (normalizeConditions rule) h
  simp only [evaluate, h1, ok_bind, pure_ok]

/-- C2 witness: the README basic example evaluates to true. -/
theorem c2_evaluate_first_satisfied_witness :
    evaluate [] (fun _ _ => false) 1 wPushRule (.vObj [("pushEnabled", .vBool false)]) =
      .ok (.vBool true) :=
  c2_evaluate_first_satisfied [] (fun _ _ => false) 1 wPushRule
    [("pushEnabled", .vBool false)]
    (by
      intro c hc
      rw [show normalizeConditions wPushRule = [wPushCond] from rfl] at hc
      simp only [List.mem_singleton] at hc
      subst hc
      exact ⟨true, rfl⟩)

/-- C6 counterexample: the rule
`{conditions: {all: [{any: [], result: true}]}}` carries a `result`
key on a nested (depth 1) condition, yet `Validator.validate` accepts
it: the nested-result check sits inside the node loop of the nested
condition, which never runs when its branch sequence is empty. -/
theorem c6_nested_result_empty_branch_accepted :
    validate [] (fun _ => true) 2 c6Rule = .ok ⟨true, none⟩ ∧
    hasKeyB c6Inner "result" = true :=
  ⟨rfl, rfl⟩

/-- C6 amended: a nested condition (depth greater than 0) carrying a
`result` key is rejected with the error
`Nested conditions cannot have a property "result".` whenever its
branch sequence is nonempty and its first node resolves to a condition
or constraint (with the recursive validation of a condition first node
returning cleanly); the offending element reported is that first node. -/
theorem c6_nested_result_rejected_when_branch_nonempty
    (rules : List StoredRule) (rxOk : String → Bool) (n : Nat)
    (fields : List (String × Val)) (depth : Nat) (t : CondType)
    (n0 node0 : Val) (rest : List Val)
    (hdepth : 0 < depth)
    (hres : hasKeyB (.vObj fields) "result" = true)
    (hvalid : isValidCondition (.vObj fields) = ⟨true, none⟩)
    (ht : conditionType (.vObj fields) = .ok (some t))
    (hbr : getProp (.vObj fields) (ctKey t) = some (.vArr (n0 :: rest)))
    (hr0 : resolveNode rules n0 = .ok node0)
    (hclass : isCondition node0 = true ∨ isConstraint node0 = true)
    (hsub : isCondition node0 = true →
      ∃ sub, validateCondition rules rxOk n node0 (depth + 1) = .ok sub) :
    validateCondition rules rxOk (n + 1) (.vObj fields) depth =
      .ok ⟨false, some ⟨"Nested conditions cannot have a property \"result\".", node0⟩⟩ := by
  have hstep : validateCondition rules rxOk (n + 1) (.vObj fields) depth =
      validateNodes rules rxOk (validateCondition rules rxOk n) (.vObj fields) depth
        (n0 :: rest) ⟨true, none⟩ := by
    simp only [validateCondition,
      show resolveNode rules (.vObj fields) = Except.ok (.vObj fields) from rfl,
      ok_bind, hvalid, ht, Option.map_some', Option.getD_some, hbr]
    simp
  rw [hstep]
  simp only [validateNodes, hr0, ok_bind]
  cases hc : isCondition node0 with
  | true =>
    obtain ⟨sub, hsubeq⟩ := hsub hc
    simp [hc, hsubeq, hdepth, hres, ok_bind, pure_ok]
  | false =>
    have hk : isConstraint node0 = true := by
      rcases hclass with h | h
      · rw [hc] at h; exact absurd h (by simp)
      · exact h
    simp [hc, hk, hdepth, hres, ok_bind, pure_ok]

/-- C6 witness for the amended theorem: the nested condition
`{any: [wConstraintTrue], result: true}` at depth 1 is rejected with
the nested-result error naming its first node. -/
theorem c6_nested_result_rejected_when_branch_nonempty_witness :
    validateCondition [] (fun _ => true) 1 c6wCond 1 =
      .ok ⟨false, some ⟨"Nested conditions cannot have a property \"result\".",
        wConstraintTrue⟩⟩ :=
  c6_nested_result_rejected_when_branch_nonempty [] (fun _ => true) 0
    [("any", .vArr [wConstraintTrue]), ("result", .vBool true)] 1 .anyOf
    wConstraintTrue wConstraintTrue [] (by decide) rfl rfl rfl rfl rfl
    (Or.inr rfl) (fun h => absurd h (by decide))

/-- C7: with every top-level condition validating without a thrown
error, `Validator.validate` visits all of them: the returned isValid
is the AND across the per-condition verdicts and the returned error is
the first error encountered, never overwritten by a later one. -/
theorem c7_validate_visits_all_top_level (rules : List StoredRule)
    (rxOk : String → Bool) (fuel : Nat) (rule : Val) (r : Val → VResult)
    (hobj : isObject rule = true)
    (hguard : emptyCheckGuard (normalizeConditions rule) = false)
    (hsub : ∀ c ∈ normalizeConditions rule,
      validateCondition rules rxOk fuel c 0 = .ok (r c)) :
    validate rules rxOk fuel rule =
      .ok ⟨(normalizeConditions rule).all (fun c => (r c).isValid),
           (normalizeConditions rule).findSome? (fun c => (r c).error)⟩ := by
  unfold validate
  rw [hobj]
  simp only [Bool.not_true, Bool.false_eq_true, if_false, hguard]
  rw [validateTop_spec rules rxOk fuel r (normalizeConditions rule) ⟨true, none⟩ hsub]
  simp

/-- C7 witness: a rule with a structurally bad first top-level
condition and a valid second one; validation visits both and reports
the AND of the verdicts with the first error. -/
theorem c7_validate_visits_all_top_level_witness :
    validate [] (fun _ => true) 1 c7Rule =
      .ok ⟨(normalizeConditions c7Rule).all (fun c => (c7r c).isValid),
           (normalizeConditions c7Rule).findSome? (fun c => (c7r c).error)⟩ :=
  c7_validate_visits_all_top_level [] (fun _ => true) 1 c7Rule c7r rfl rfl
    (by
      intro c hc
      rw [show normalizeConditions c7Rule = [c7CondA, c7CondB] from rfl] at hc
      simp only [List.mem_cons, List.not_mem_nil, or_false] at hc
      rcases hc with rfl | rfl
      · rfl
      · rfl)

/-- C9: for the operators `matches` and `does not match` with a
defined resolved field, the resolved criterion supplies the regex
pattern and the stringified `constraint.value` supplies the subject:
`checkConstraint` returns exactly the (negated) regex test of the
pattern built from the criterion against the string form of the
value. -/
theorem c9_matches_asymmetry (rt : String → String → Bool)
    (constraint criteria : Val) (f : String) (criterion v : Val)
    (hf : getProp constraint "field" = some (.vStr f))
    (hres : resolveField f criteria = some criterion)
    (hval : getProp constraint "value" = some v) :
    (getProp constraint "operator" = some (.vStr "matches") →
      checkConstraint rt constraint criteria =
        .ok (rt (jsToString criterion) (jsToString v))) ∧
    (getProp constraint "operator" = some (.vStr "does not match") →
      checkConstraint rt constraint criteria =
        .ok (!rt (jsToString criterion) (jsToString v))) := by
  constructor <;> intro hop <;>
    simp only [checkConstraint, hf, Option.getD_some, hres, hval, hop] <;>
    simp +decide [pure_ok]

/-- C9 witness: with a literal-equality regex stand-in, the criterion
string is the pattern and the stringified value the subject. -/
theorem c9_matches_asymmetry_witness :
    checkConstraint (fun p s => p == s) c9Constraint c9Criteria = .ok false :=
  (c9_matches_asymmetry (fun p s => p == s) c9Constraint c9Criteria "x"
    (.vStr "abc") (.vStr "z") rfl rfl rfl).1 rfl

end SFRE
